import Mathlib

/-!
Verification of the question-traversal and verdict-reconciliation engine of the
playwright-automation repository.  The TypeScript sources are shallowly embedded:
pure fragments (string classification, range arithmetic, summary computation,
retry control flow) become executable Lean functions; page interaction is
abstracted to the data the control flow inspects (button texts, visibility,
call outcomes).  JavaScript string operations (`toLowerCase`, `includes`,
`trim`, `parseInt`, first-occurrence `replace`) are modelled explicitly below.
-/

namespace PlaywrightAutomation

/-! ## JavaScript string primitives -/

/-- Model of `String.prototype.toLowerCase` (ASCII case mapping, which covers
every keyword the sources compare against). -/
def jsToLower (s : String) : String := ⟨s.data.map Char.toLower⟩

/-- Helper for `jsIncludes`: is `pat` a prefix of `l`, comparing characters. -/
def charsPrefixOf : List Char → List Char → Bool
  | [], _ => true
  | _ :: _, [] => false
  | a :: as, b :: bs => a == b && charsPrefixOf as bs

/-- Helper for `jsIncludes`: does `pat` occur contiguously inside `l`. -/
def charsContains (l pat : List Char) : Bool :=
  match l with
  | [] => pat.isEmpty
  | _ :: t => charsPrefixOf pat l || charsContains t pat

/-- Model of `String.prototype.includes`. -/
def jsIncludes (s pat : String) : Bool := charsContains s.data pat.data

/-- Whitespace recognized by the model of `String.prototype.trim`. -/
def isJsSpace (c : Char) : Bool :=
  c == ' ' || c == '\t' || c == '\n' || c == '\r'

/-- Model of `String.prototype.trim`: drop whitespace from both ends. -/
def jsTrim (s : String) : String :=
  ⟨((s.data.dropWhile isJsSpace).reverse.dropWhile isJsSpace).reverse⟩

/-- JavaScript truthiness of an optional string (`undefined` and `""` are
falsy; every other string is truthy). -/
def strTruthy : Option String → Bool
  | none => false
  | some s => s != ""

/-! ## Data model (`reportGenerator.ts`)

`QuestionResult` is the row type accumulated by `ReportGenerator`.  The
`status` union type `'PASSED' | 'FAILED' | 'SKIPPED'` becomes an inductive. -/

inductive QStatus
  | PASSED
  | FAILED
  | SKIPPED
deriving DecidableEq

structure QuestionResult where
  questionNumber : String
  questionText : String
  code : String
  status : QStatus
  errorMessage : Option String
  geminiStatus : Option String
  geminiRemarks : Option String
deriving DecidableEq

structure RunSummary where
  total : Nat
  passed : Nat
  failed : Nat
  skipped : Nat
  successRate : String
deriving DecidableEq

/-- Model of `((passed / total) * 100).toFixed(2)` for `total > 0`.  The source
computes in IEEE doubles; this model uses exact rational arithmetic with the
ECMAScript `toFixed` rounding rule (nearest, ties away from zero), i.e.
`round(10000 * passed / total) / 100` rendered with two decimals. -/
def successRatePercent (passed total : Nat) : String :=
  let scaled := (20000 * passed + total) / (2 * total)
  toString (scaled / 100) ++ "." ++
    (if scaled % 100 < 10 then "0" ++ toString (scaled % 100) else toString (scaled % 100))

/-- `ReportGenerator.getSummary` (reportGenerator.ts lines 94-107): counts per
status over the ledger plus the formatted success rate, `"0.00"` when the
ledger is empty. -/
def getSummary (results : List QuestionResult) : RunSummary :=
  let total := results.length
  let passed := (results.filter (fun r => r.status == QStatus.PASSED)).length
  let failed := (results.filter (fun r => r.status == QStatus.FAILED)).length
  let skipped := (results.filter (fun r => r.status == QStatus.SKIPPED)).length
  { total := total, passed := passed, failed := failed, skipped := skipped,
    successRate := if total > 0 then successRatePercent passed total else "0.00" }

/-! ## Terminal flush discipline (`coding_questions.spec.ts` test body)

The run ends in one of four ways:
  - `done`: the `try` block runs to completion, flushing the final report
    unconditionally (line 1143) and setting `reportGenerated` (line 1145);
  - `exceptionEarly`: an exception escapes the loop before the completion
    flush; the `catch` block (lines 1191-1211) flushes when the ledger is
    non-empty and re-raises;
  - `exceptionLate`: an exception is raised after the completion flush (the
    multi-runner merge step, lines 1156-1190, runs inside the same `try`);
    the `catch` block consults only ledger non-emptiness, not the flag;
  - `interrupted`: a SIGINT/SIGTERM handler calls `generatePartialReport`
    (lines 809-828), which flushes when the flag is unset and the ledger is
    non-empty, then exits the process, so the `finally` block never runs.
In every non-interrupted case the `finally` block (lines 1212-1235) flushes
when the flag is unset and the ledger is non-empty. -/

inductive RunOutcome
  | done
  | exceptionEarly
  | exceptionLate
  | interrupted
deriving DecidableEq

structure TerminalEffects where
  flushes : Nat
  summaries : Nat
  reportGenerated : Bool
deriving DecidableEq

/-- One `generateExcelReport` + `getSummary` print, setting the flag. -/
def flushStep (s : TerminalEffects) : TerminalEffects :=
  { flushes := s.flushes + 1, summaries := s.summaries + 1, reportGenerated := true }

/-- Guard shared by `generatePartialReport` (signal handlers) and the
`finally` block: flush only if the flag is unset and results exist. -/
def exitHandlerFlush (resultsNonempty : Bool) (s : TerminalEffects) : TerminalEffects :=
  if s.reportGenerated = false ∧ resultsNonempty = true then flushStep s else s

/-- The `catch` block's flush guard: it checks only that results exist
(line 1196), never the `reportGenerated` flag. -/
def catchFlush (resultsNonempty : Bool) (s : TerminalEffects) : TerminalEffects :=
  if resultsNonempty = true then flushStep s else s

/-- Flush/summary effects of the terminal phase of a run, by outcome and by
whether the ledger holds at least one result. -/
def terminalRun (o : RunOutcome) (resultsNonempty : Bool) : TerminalEffects :=
  let s0 : TerminalEffects := { flushes := 0, summaries := 0, reportGenerated := false }
  match o with
  | .done => exitHandlerFlush resultsNonempty (flushStep s0)
  | .exceptionEarly => exitHandlerFlush resultsNonempty (catchFlush resultsNonempty s0)
  | .exceptionLate => exitHandlerFlush resultsNonempty (catchFlush resultsNonempty (flushStep s0))
  | .interrupted => exitHandlerFlush resultsNonempty s0

/-! ## Verdict classification (`solveQuestion`)

Two variants classify the grading result text.  The main variant
(coding_questions.spec.ts lines 648-665) lowercases the trimmed text and
tests success keywords then failure keywords; when neither family matches
(and no fallback selector on the page yields a signal) the question is
recorded `SKIPPED` (line 772).  The part_001 variant (lines 438-447)
lowercases the text but compares the second branch against the mixed-case
literal `Wrong Answer`. -/

/-- Main-variant classification of the terminal result text: the primary
branch of coding_questions.spec.ts lines 648-665, falling through to the
`SKIPPED` default (line 772) when no keyword family matches. -/
def classifyResultMain (resultText : String) : QStatus :=
  let lowerText := jsToLower (jsTrim resultText)
  if jsIncludes lowerText "congratulations" || jsIncludes lowerText "correct" ||
      jsIncludes lowerText "passed" then
    QStatus.PASSED
  else if jsIncludes lowerText "wrong answer" || jsIncludes lowerText "incorrect" ||
      jsIncludes lowerText "failed" then
    QStatus.FAILED
  else
    QStatus.SKIPPED

/-- part_001-variant classification (src/unnamed/part_001 lines 438-447):
`resultText.toLowerCase().includes('congratulations')` yields `PASSED`,
`resultText.toLowerCase().includes('Wrong Answer')` yields `FAILED`
(the pattern is kept mixed-case exactly as in the source), anything else
yields `SKIPPED`. -/
def classifyResultPart001 (resultText : String) : QStatus :=
  if jsIncludes (jsToLower resultText) "congratulations" then QStatus.PASSED
  else if jsIncludes (jsToLower resultText) "Wrong Answer" then QStatus.FAILED
  else QStatus.SKIPPED

/-! ## Question-marker navigation (`navigateToQuestion`, `verifyNextQuestionExists`)

A page is modelled as the ordered list of its buttons; each button carries its
text content, whether it has the `width: 50px; height: 50px` inline style, and
its visibility.  Playwright selector semantics used by the sources:
  - `:text-is("Qn")` matches an element whose normalized text equals `Qn`;
  - `:text-exact(...)` is not a Playwright pseudo-class, so that selector
    throws and the `catch` moves to the next selector (modelled by skipping);
  - `:has-text("Qn")` matches case-insensitively on a substring;
  - a locator that resolves to several elements makes `isVisible`/`click`
    throw a strict-mode violation, which the `catch` turns into trying the
    next selector (modelled by returning no match). -/

structure PwButton where
  text : String
  styled : Bool
  visible : Bool
deriving DecidableEq

/-- Label of the marker button for ordinal `n`. -/
def qLabel (n : Nat) : String := "Q" ++ toString n

/-- `:text-is(label)`: normalized (trimmed) text equality. -/
def textIs (label : String) (b : PwButton) : Bool := jsTrim b.text == label

/-- `:has-text(pat)`: case-insensitive substring match. -/
def hasTextCI (pat : String) (b : PwButton) : Bool :=
  jsIncludes (jsToLower b.text) (jsToLower pat)

/-- The third selector of `verifyNextQuestionExists` (lines 293-297):
`button:has-text(label)` filtered by `:not(:has-text(label ++ d))` for each
digit `d`. -/
def hasTextNotDigit (label : String) (b : PwButton) : Bool :=
  hasTextCI label b &&
    (List.range 10).all (fun d => !hasTextCI (label ++ toString d) b)

/-- `page.locator(sel)` followed by `isVisible`, under strict mode: a unique
visible match succeeds, zero matches report invisible, several matches throw
(caught by the callers, who move on).  Returns the matched button. -/
def strictFirstVisible (pred : PwButton → Bool) (page : List PwButton) : Option PwButton :=
  match page.filter pred with
  | [b] => if b.visible then some b else none
  | _ => none

/-- `navigateToQuestion` (coding_questions.spec.ts lines 342-390): layered
selectors `button:text-is`, the invalid `button:text-exact` (always throws,
skipped), styled `button:text-is`, then a fallback loop over all buttons
clicking the first visible one whose trimmed text equals the label.  Returns
the clicked button. -/
def navigateToQuestion (page : List PwButton) (questionNumber : Nat) : Option PwButton :=
  let questionText := qLabel questionNumber
  match strictFirstVisible (textIs questionText) page with
  | some b => some b
  | none =>
    match strictFirstVisible (fun b => b.styled && textIs questionText b) page with
    | some b => some b
    | none => page.find? (fun b => jsTrim b.text == questionText && b.visible)

/-- `verifyNextQuestionExists` (coding_questions.spec.ts lines 287-340):
layered selectors `button:text-is`, the invalid `button:text-exact`
(skipped), the `has-text`/`:not(:has-text(..digit))` chain, then a fallback
loop over all buttons looking for a visible exact trimmed-text match. -/
def verifyNextQuestionExists (page : List PwButton) (currentQuestionNumber : Nat) : Bool :=
  let nextQuestionText := qLabel (currentQuestionNumber + 1)
  (strictFirstVisible (textIs nextQuestionText) page).isSome ||
  (strictFirstVisible (hasTextNotDigit nextQuestionText) page).isSome ||
  page.any (fun b => jsTrim b.text == nextQuestionText && b.visible)

/-! ## Runner range computation (coding_questions.spec.ts lines 911-924) -/

/-- The start/end ordinals a runner processes.  For several runners the code
computes `questionsPerRunner = Math.ceil(total / RUNNERS)` and assigns runner
`id` the interval from `startFrom + (id - 1) * per` to
`min(start + per - 1, endTo)`. -/
def runnerRange (startFrom endTo runners id : Nat) : Nat × Nat :=
  if runners > 1 then
    let total := endTo - startFrom + 1
    let questionsPerRunner := (total + runners - 1) / runners
    let s := startFrom + (id - 1) * questionsPerRunner
    (s, min (s + questionsPerRunner - 1) endTo)
  else
    (startFrom, endTo)

/-! ## Question-level retry loop (coding_questions.spec.ts lines 970-1004)

One call to `solveQuestion` always appends exactly one row to the ledger and
returns it; the row produced by call number `k` (0-based `retryCount`) is
abstracted as `attempts k`.  The surrounding `while` loop retries while the
returned row's `errorMessage` is truthy and `retryCount < maxRetries = 2`,
popping the just-appended row and re-navigating before each retry; at
`retryCount = 2` with a truthy `errorMessage` it pops the row and appends a
terminal `SKIPPED` row instead. -/

structure SolveOut where
  questionText : String
  code : String
  status : QStatus
  errorMessage : Option String
deriving DecidableEq

/-- The row `solveQuestion` appends for ordinal `i` given the attempt's data. -/
def solveRecord (i : Nat) (o : SolveOut) : QuestionResult :=
  { questionNumber := qLabel i, questionText := o.questionText, code := o.code,
    status := o.status, errorMessage := o.errorMessage,
    geminiStatus := none, geminiRemarks := none }

/-- The terminal row built at lines 992-1002 after retries are exhausted:
status `SKIPPED`, code `Retry exhausted`, error detail quoting the last
failure (`undefined` mirrors JavaScript template interpolation of a missing
message, a case the guarded branch never reaches). -/
def skipRecord (i : Nat) (last : SolveOut) : QuestionResult :=
  { questionNumber := qLabel i,
    questionText := if last.questionText != "" then last.questionText
                    else "Question " ++ toString i,
    code := "Retry exhausted",
    status := QStatus.SKIPPED,
    errorMessage := some ("Failed after 2 retries due to: " ++
      (match last.errorMessage with | some m => m | none => "undefined")),
    geminiStatus := some "SKIPPED",
    geminiRemarks := some "Skipped - retry exhausted" }

/-- The `while (retryCount <= maxRetries && !skipToNext)` loop.  `fuel`
bounds the iteration count (the loop runs at most three times because
`retryCount` only increments below 2); `navs` counts the `navigateToQuestion`
calls made before retries. -/
def retryLoopGo (i : Nat) (attempts : Nat → SolveOut) :
    Nat → Nat → List QuestionResult → Nat → List QuestionResult × Nat
  | 0, _, ledger, navs => (ledger, navs)
  | fuel + 1, retryCount, ledger, navs =>
    let r := attempts retryCount
    let ledger1 := ledger ++ [solveRecord i r]
    if strTruthy r.errorMessage && retryCount < 2 then
      retryLoopGo i attempts fuel (retryCount + 1) ledger1.dropLast (navs + 1)
    else if strTruthy r.errorMessage && retryCount == 2 then
      (ledger1.dropLast ++ [skipRecord i r], navs)
    else
      (ledger1, navs)

/-- Entry point of the retry loop: `retryCount = 0`, no retries performed yet. -/
def retryLoop (i : Nat) (attempts : Nat → SolveOut) (ledger : List QuestionResult) :
    List QuestionResult × Nat :=
  retryLoopGo i attempts 3 0 ledger 0

/-! ## Verdict Classifier client (`geminiAnalyzer.ts`, `src/unnamed/part_002`)

The client's control flow is embedded; the network call itself is abstracted
as an environment `env modelIdx attempt` that either completes the `try`
block with a parsed analysis (`ok`) or throws with an error message (`err`).
The trace records every `generateContent` call `(modelIdx, attempt)` and
every backoff sleep in milliseconds. -/

structure GAnalysis where
  status : String
  remarks : String
  isValid : Bool
deriving DecidableEq

inductive CallOutcome
  | ok (a : GAnalysis)
  | err (msg : String)
deriving DecidableEq

/-- `GeminiAnalyzer.shouldRetry` (geminiAnalyzer.ts lines 31-44): false for a
missing/empty message, otherwise a case-insensitive substring test against
the seven transient markers (note the marker is `econnrefused`). -/
def shouldRetry (msg : String) : Bool :=
  if msg == "" then false
  else
    let errorMessage := jsToLower msg
    jsIncludes errorMessage "503" || jsIncludes errorMessage "service unavailable" ||
    jsIncludes errorMessage "overloaded" || jsIncludes errorMessage "429" ||
    jsIncludes errorMessage "rate limit" || jsIncludes errorMessage "timeout" ||
    jsIncludes errorMessage "econnrefused"

/-- The stub result returned when no API key is configured
(geminiAnalyzer.ts lines 183-189). -/
def geminiStubResult : GAnalysis :=
  { status := "SKIPPED",
    remarks := "Gemini analysis skipped - API key not configured",
    isValid := false }

/-- The terminal result returned after every model/attempt combination failed
(geminiAnalyzer.ts lines 317-323, part_002 lines 148-154). -/
def geminiErrResult (lastMsg : String) : GAnalysis :=
  { status := "ERROR",
    remarks := "Analysis failed: " ++ lastMsg ++ ". Service may be overloaded.",
    isValid := false }

/-- The inner `for (attempt = 1; attempt <= maxRetries; attempt++)` loop with
`maxRetries = 3`, `retryDelay = 2000`.  On an error: if it is transient and
attempts remain, sleep `2000 * 2 ^ (attempt - 1)` and continue; else if this
was the last attempt and another model remains, break to the next model; else
fall through to the next attempt without sleeping.  `fuel` bounds iteration
(4 suffices from `attempt = 1`).  Returns the successful analysis (if any),
the last error, and the accumulated call/delay trace. -/
def geminiAttempts (env : Nat → Nat → CallOutcome) (mIdx : Nat) (lastModel : Bool) :
    Nat → Nat → Option String → List (Nat × Nat) → List Nat →
    Option GAnalysis × Option String × List (Nat × Nat) × List Nat
  | 0, _, lastErr, calls, delays => (none, lastErr, calls, delays)
  | fuel + 1, attempt, lastErr, calls, delays =>
    if attempt > 3 then (none, lastErr, calls, delays)
    else
      match env mIdx attempt with
      | .ok a => (some a, lastErr, calls ++ [(mIdx, attempt)], delays)
      | .err m =>
        if shouldRetry m ∧ attempt < 3 then
          geminiAttempts env mIdx lastModel fuel (attempt + 1) (some m)
            (calls ++ [(mIdx, attempt)]) (delays ++ [2000 * 2 ^ (attempt - 1)])
        else if 3 ≤ attempt ∧ lastModel = false then
          (none, some m, calls ++ [(mIdx, attempt)], delays)
        else
          geminiAttempts env mIdx lastModel fuel (attempt + 1) (some m)
            (calls ++ [(mIdx, attempt)]) delays

/-- The outer `for (const modelName of models)` loop; when every model is
exhausted, the fall-through return builds the `ERROR` result from the last
error (`Unknown error` when none was recorded). -/
def geminiModels (env : Nat → Nat → CallOutcome) :
    List Nat → Option String → List (Nat × Nat) → List Nat →
    GAnalysis × List (Nat × Nat) × List Nat
  | [], lastErr, calls, delays =>
    (geminiErrResult (match lastErr with | some m => m | none => "Unknown error"),
     calls, delays)
  | i :: rest, lastErr, calls, delays =>
    match geminiAttempts env i rest.isEmpty 4 1 lastErr calls delays with
    | (some a, _, calls1, delays1) => (a, calls1, delays1)
    | (none, lastErr1, calls1, delays1) => geminiModels env rest lastErr1 calls1 delays1

/-- The constructor's credential check (geminiAnalyzer.ts lines 16-25):
`genAI` stays `null` when the key is absent, empty (falsy), or the
placeholder `your_api_key_here`. -/
def geminiKeyConfigured (apiKey : Option String) : Bool :=
  match apiKey with
  | none => false
  | some k => !(k == "" || k == "your_api_key_here")

/-- `analyzeQuestionAndCode`: with no configured key it immediately returns
the skip stub without touching the network (empty call trace); otherwise it
runs the model/attempt loops.  The question/code arguments only shape the
prompt and are omitted; `modelIdxs` indexes the configured model list. -/
def analyzeQuestionAndCode (apiKey : Option String) (env : Nat → Nat → CallOutcome)
    (modelIdxs : List Nat) : GAnalysis × List (Nat × Nat) × List Nat :=
  if geminiKeyConfigured apiKey then
    geminiModels env modelIdxs none [] []
  else
    (geminiStubResult, [], [])

/-! ## Report merging (`ReportGenerator.mergeReports`, reportGenerator.ts 109-166)

Rows read back from the per-runner sheets are modelled by their
`Question Number` cell (absent when the column is missing) plus an opaque
rest.  The comparator is
`parseInt(a['Question Number']?.replace('Q', '') || '0') - (same for b)`;
when `parseInt` yields `NaN` the ECMAScript SortCompare treats the comparator
value as neither negative nor positive, i.e. as equality, and
`Array.prototype.sort` is stable, so such rows keep their relative position.
The sort is modelled as a stable insertion sort over that ordering. -/

structure SheetRow where
  questionNumber : Option String
  rest : String
deriving DecidableEq

/-- `String.prototype.replace('Q', '')`: remove the first occurrence. -/
def removeFirstChar (target : Char) : List Char → List Char
  | [] => []
  | c :: cs => if c == target then cs else c :: removeFirstChar target cs

/-- Remove the first `Q` from a question-number cell. -/
def removeFirstQ (s : String) : String := ⟨removeFirstChar 'Q' s.data⟩

/-- Model of JavaScript `parseInt` in base 10: skip leading whitespace, an
optional sign, then the longest digit prefix; `none` models `NaN`. -/
def parseIntJS (s : String) : Option Int :=
  let cs := s.data.dropWhile isJsSpace
  let signAndRest : Bool × List Char :=
    match cs with
    | '-' :: t => (true, t)
    | '+' :: t => (false, t)
    | t => (false, t)
  let ds := signAndRest.2.takeWhile Char.isDigit
  if ds.isEmpty then none
  else
    let v : Int := ds.foldl (fun acc c => acc * 10 + Int.ofNat (c.toNat - 48)) 0
    some (if signAndRest.1 then -v else v)

/-- The sort key of a merged row:
`parseInt(row['Question Number']?.replace('Q', '') || '0')`; `none` is `NaN`. -/
def mergeRowKey (r : SheetRow) : Option Int :=
  match r.questionNumber with
  | none => some 0
  | some s =>
    let s2 := removeFirstQ s
    if s2 == "" then some 0 else parseIntJS s2

/-- Boolean form of "the comparator does not order `b` strictly before `a`":
`aNum - bNum ≤ 0`, with a `NaN` comparator value treated as 0. -/
def rowLeB (a b : SheetRow) : Bool :=
  match mergeRowKey a, mergeRowKey b with
  | some x, some y => decide (x ≤ y)
  | _, _ => true

/-- The merge ordering as a decidable relation. -/
def rowLe (a b : SheetRow) : Prop := rowLeB a b = true

instance rowLeDecidable : DecidableRel rowLe :=
  fun a b => inferInstanceAs (Decidable (rowLeB a b = true))

/-- `ReportGenerator.mergeReports`: concatenate the rows of all readable
report files, then sort them with the question-number comparator (stable). -/
def mergeReports (files : List (List SheetRow)) : List SheetRow :=
  List.insertionSort rowLe (files.flatten)

/-! ## Theorems -/

/-- Sample row used to evaluate `getSummary` on concrete ledgers. -/
def sampleRow (st : QStatus) : QuestionResult :=
  { questionNumber := "Q1", questionText := "t", code := "c", status := st,
    errorMessage := none, geminiStatus := none, geminiRemarks := none }

lemma getSummary_partition (rs : List QuestionResult) :
    (getSummary rs).passed + (getSummary rs).failed + (getSummary rs).skipped
      = (getSummary rs).total := by
  simp only [getSummary]
  induction rs with
  | nil => rfl
  | cons r t ih =>
    cases hst : r.status <;>
      simp only [List.filter_cons, hst, List.length_cons] <;>
      simp_all <;> omega

/-- Claim C10: `getSummary` returns the counts of PASSED, FAILED and SKIPPED
rows, which always sum to the total, and a success rate of `passed / total`
as a percentage with two decimals, `"0.00"` for an empty ledger (concrete
rates: 1 of 3 is `"33.33"`, 1 of 2 is `"50.00"`, 2 of 2 is `"100.00"`). -/
theorem c10_summary_counts_and_rate (rs : List QuestionResult) :
    (getSummary rs).passed + (getSummary rs).failed + (getSummary rs).skipped
        = (getSummary rs).total
    ∧ (getSummary ([] : List QuestionResult)).successRate = "0.00"
    ∧ (getSummary [sampleRow QStatus.PASSED, sampleRow QStatus.FAILED,
          sampleRow QStatus.SKIPPED]).successRate = "33.33"
    ∧ (getSummary [sampleRow QStatus.PASSED, sampleRow QStatus.FAILED]).successRate
        = "50.00"
    ∧ (getSummary [sampleRow QStatus.PASSED, sampleRow QStatus.PASSED]).successRate
        = "100.00" :=
  ⟨getSummary_partition rs, by decide, by decide, by decide, by decide⟩

/-- Claim C1 counterexample: not every terminal run state flushes exactly
once.  An operator interruption with an empty ledger flushes zero reports,
and an exception raised after the normal-completion flush (merge step)
flushes twice, because the catch path checks only ledger non-emptiness. -/
theorem c1_counterexample :
    (terminalRun RunOutcome.interrupted false).flushes = 0
    ∧ (terminalRun RunOutcome.exceptionLate true).flushes = 2 := by
  decide

/-- Claim C1 (amended): normal completion flushes exactly once; an
interruption or a pre-flush exception flushes exactly once when the ledger
is non-empty; outside the post-flush-exception path at most one terminal
flush happens; every flush prints exactly one summary; and the
`reportGenerated` flag makes the exit-handler flush (signal handler or
`finally` block) a no-op once any flush has run. -/
theorem c1_terminal_flush (o : RunOutcome) (ne : Bool) :
    (terminalRun RunOutcome.done ne).flushes = 1
    ∧ (ne = true → o ≠ RunOutcome.exceptionLate → (terminalRun o ne).flushes = 1)
    ∧ (o ≠ RunOutcome.exceptionLate → (terminalRun o ne).flushes ≤ 1)
    ∧ (terminalRun o ne).summaries = (terminalRun o ne).flushes
    ∧ (∀ s : TerminalEffects, s.reportGenerated = true → exitHandlerFlush ne s = s) := by
  refine ⟨by cases ne <;> decide, ?_, ?_, ?_, ?_⟩
  · intro hne ho
    subst hne
    cases o
    · decide
    · decide
    · exact absurd rfl ho
    · decide
  · intro ho
    cases o
    · cases ne <;> decide
    · cases ne <;> decide
    · exact absurd rfl ho
    · cases ne <;> decide
  · cases o <;> cases ne <;> decide
  · intro s hs
    simp [exitHandlerFlush, hs]

/-- Claim C1 witness: an interruption with a non-empty ledger flushes
exactly once. -/
theorem c1_terminal_flush_witness :
    (terminalRun RunOutcome.interrupted true).flushes = 1 :=
  (c1_terminal_flush RunOutcome.interrupted true).2.1 rfl (by decide)

/-- Claim C3: classification is case-insensitive in the main variant, but the
part_001 variant compares the lowercased result text against the mixed-case
literal `Wrong Answer`, a condition that can never hold: the texts
`Wrong Answer` and `wrong answer` are classified `SKIPPED` there instead of
`FAILED`, while the main variant classifies them `FAILED` in any casing. -/
theorem c3_wrong_answer_casing :
    classifyResultPart001 "Wrong Answer" = QStatus.SKIPPED
    ∧ classifyResultPart001 "wrong answer" = QStatus.SKIPPED
    ∧ classifyResultMain "Wrong Answer" = QStatus.FAILED
    ∧ classifyResultMain "wrong answer" = QStatus.FAILED
    ∧ classifyResultMain "WRONG ANSWER" = QStatus.FAILED
    ∧ classifyResultMain "CONGRATULATIONS! Well done" = QStatus.PASSED
    ∧ classifyResultPart001 "Congratulations!" = QStatus.PASSED
    ∧ classifyResultPart001 "Processing..." = QStatus.SKIPPED := by
  decide

lemma runnerRange_of_many (s e R id : Nat) (hR : 1 < R) :
    runnerRange s e R id
      = (s + (id - 1) * ((e - s + 1 + R - 1) / R),
         min (s + (id - 1) * ((e - s + 1 + R - 1) / R) + (e - s + 1 + R - 1) / R - 1) e) := by
  simp [runnerRange, hR]

/-- Claim C7 counterexample: 5 questions over 4 runners give a per-runner
share of ceil(5/4) = 2; runner 4's range is (7, 5), i.e. empty, while the
leftover question 5 goes to runner 3 — the last runner does not absorb the
remainder. -/
theorem c7_counterexample :
    runnerRange 1 5 4 4 = (7, 5)
    ∧ (runnerRange 1 5 4 4).2 < (runnerRange 1 5 4 4).1
    ∧ runnerRange 1 5 4 3 = (5, 5) := by
  decide

/-- Claim C7 (amended): the ranges are computed with ceiling division, so they
are pairwise disjoint, contiguous intervals whose union covers the whole
start/end range, and the last runner's interval always ends at the overall
end ordinal — but it receives only the leftover (the earlier runners take the
larger ceil-size shares) and can be empty. -/
theorem c7_runner_ranges (s e R : Nat) (hs : 1 ≤ s) (hse : s ≤ e) (hR : 1 ≤ R) :
    (∀ i j, 1 ≤ i → i < j → j ≤ R →
        (runnerRange s e R i).2 < (runnerRange s e R j).1)
    ∧ (∀ q, s ≤ q → q ≤ e → ∃ id, 1 ≤ id ∧ id ≤ R ∧
        (runnerRange s e R id).1 ≤ q ∧ q ≤ (runnerRange s e R id).2)
    ∧ (runnerRange s e R R).2 = e := by
  by_cases hR1 : R = 1
  · subst hR1
    refine ⟨fun i j hi hij hj => by omega, ?_, by simp [runnerRange]⟩
    intro q hq1 hq2
    exact ⟨1, le_refl 1, le_refl 1, by simpa [runnerRange] using hq1,
      by simpa [runnerRange] using hq2⟩
  · have hR2 : 1 < R := by omega
    have hdm := Nat.div_add_mod (e - s + 1 + R - 1) R
    have hmod : (e - s + 1 + R - 1) % R < R := Nat.mod_lt _ (by omega)
    have hPpos : 1 ≤ (e - s + 1 + R - 1) / R := by
      rcases Nat.eq_zero_or_pos ((e - s + 1 + R - 1) / R) with h0 | h1
      · rw [h0, Nat.mul_zero] at hdm; omega
      · exact h1
    have hcov : e - s + 1 ≤ R * ((e - s + 1 + R - 1) / R) := by omega
    refine ⟨?_, ?_, ?_⟩
    · intro i j hi hij hj
      rw [runnerRange_of_many s e R i hR2, runnerRange_of_many s e R j hR2]
      have hle : (e - s + 1 + R - 1) / R ≤ i * ((e - s + 1 + R - 1) / R) :=
        Nat.le_mul_of_pos_left _ (by omega)
      have h1 : (i - 1) * ((e - s + 1 + R - 1) / R) + (e - s + 1 + R - 1) / R
          = i * ((e - s + 1 + R - 1) / R) := by
        rw [Nat.sub_one_mul]; omega
      have h2 : i * ((e - s + 1 + R - 1) / R) ≤ (j - 1) * ((e - s + 1 + R - 1) / R) :=
        Nat.mul_le_mul_right _ (by omega)
      have hm := min_le_left
        (s + (i - 1) * ((e - s + 1 + R - 1) / R) + (e - s + 1 + R - 1) / R - 1) e
      simp only
      omega
    · intro q hq1 hq2
      have hk1 : (q - s) / ((e - s + 1 + R - 1) / R) * ((e - s + 1 + R - 1) / R) ≤ q - s :=
        Nat.div_mul_le_self _ _
      have hk2 : q - s
          < ((q - s) / ((e - s + 1 + R - 1) / R) + 1) * ((e - s + 1 + R - 1) / R) :=
        (Nat.div_lt_iff_lt_mul (by omega)).mp (Nat.lt_succ_self _)
      rw [Nat.succ_mul] at hk2
      have hkltR : (q - s) / ((e - s + 1 + R - 1) / R) < R := by
        by_contra hcon
        push_neg at hcon
        have hge : R * ((e - s + 1 + R - 1) / R)
            ≤ (q - s) / ((e - s + 1 + R - 1) / R) * ((e - s + 1 + R - 1) / R) :=
          Nat.mul_le_mul_right _ hcon
        have hchain : e - s + 1 ≤ q - s := le_trans (le_trans hcov hge) hk1
        omega
      refine ⟨(q - s) / ((e - s + 1 + R - 1) / R) + 1, Nat.le_add_left 1 _, hkltR, ?_, ?_⟩
      · rw [runnerRange_of_many s e R _ hR2]
        simp only [Nat.add_sub_cancel]
        omega
      · rw [runnerRange_of_many s e R _ hR2]
        simp only [Nat.add_sub_cancel]
        refine le_min ?_ hq2
        omega
    · rw [runnerRange_of_many s e R R hR2]
      have hle : (e - s + 1 + R - 1) / R ≤ R * ((e - s + 1 + R - 1) / R) :=
        Nat.le_mul_of_pos_left _ (by omega)
      have hRP : (R - 1) * ((e - s + 1 + R - 1) / R) + (e - s + 1 + R - 1) / R
          = R * ((e - s + 1 + R - 1) / R) := by
        rw [Nat.sub_one_mul]; omega
      simp only
      exact min_eq_right (by omega)

/-- Claim C7 witness: with questions 1..10 and 3 runners, ordinal 10 is
covered by some runner's range and runner 3's range ends at 10. -/
theorem c7_runner_ranges_witness :
    (∃ id, 1 ≤ id ∧ id ≤ 3 ∧
      (runnerRange 1 10 3 id).1 ≤ 10 ∧ 10 ≤ (runnerRange 1 10 3 id).2)
    ∧ (runnerRange 1 10 3 3).2 = 10 := by
  have h := c7_runner_ranges 1 10 3 (by decide) (by decide) (by decide)
  exact ⟨h.2.1 10 (by decide) (by decide), h.2.2⟩

lemma strictFirstVisible_some (pred : PwButton → Bool) (page : List PwButton)
    (b : PwButton) (h : strictFirstVisible pred page = some b) :
    pred b = true ∧ b.visible = true := by
  unfold strictFirstVisible at h
  cases hf : page.filter pred with
  | nil => rw [hf] at h; simp at h
  | cons x xs =>
    cases xs with
    | nil =>
      rw [hf] at h
      cases hv : x.visible with
      | false => simp [hv] at h
      | true =>
        simp only [hv, if_true] at h
        have hx : b ∈ page.filter pred := by
          rw [hf]
          simp_all
        exact ⟨(List.mem_filter.mp hx).2, by simp_all⟩
    | cons y ys => rw [hf] at h; simp at h

def faqButton : PwButton := { text := "FAQ2", styled := false, visible := true }

/-- Claim C6 counterexample: `verifyNextQuestionExists` does not only match on
exact trimmed text: a page whose sole button reads `FAQ2` makes it report
that Q2 exists, via the substring-based `has-text` selector chain, although
no button's trimmed text equals `Q2`. -/
theorem c6_counterexample :
    verifyNextQuestionExists [faqButton] 1 = true
    ∧ jsTrim faqButton.text ≠ qLabel 2 := by
  decide

def buttonQ2 : PwButton := { text := "Q2", styled := false, visible := true }

def buttonQ20 : PwButton := { text := "Q20", styled := false, visible := true }

/-- Claim C6 (amended): `navigateToQuestion` clicks a button only when its
full trimmed text equals the target label (so with both Q2 and Q20 present it
selects Q2 and never Q20, and Q20 alone never counts as Q2);
`verifyNextQuestionExists` also excludes digit-extended labels such as Q20,
but its third selector accepts substring matches, so it is not exact-only. -/
theorem c6_exact_match_navigation :
    (∀ (page : List PwButton) (n : Nat) (b : PwButton),
        navigateToQuestion page n = some b → jsTrim b.text = qLabel n ∧ b.visible = true)
    ∧ navigateToQuestion [buttonQ20, buttonQ2] 2 = some buttonQ2
    ∧ navigateToQuestion [buttonQ20] 2 = none
    ∧ verifyNextQuestionExists [buttonQ20, buttonQ2] 1 = true
    ∧ verifyNextQuestionExists [buttonQ20] 1 = false := by
  refine ⟨?_, by decide, by decide, by decide, by decide⟩
  intro page n b h
  simp only [navigateToQuestion] at h
  cases h1 : strictFirstVisible (textIs (qLabel n)) page with
  | some x =>
    rw [h1] at h
    simp only [Option.some.injEq] at h
    subst h
    obtain ⟨hp, hv⟩ := strictFirstVisible_some _ _ _ h1
    exact ⟨by simpa [textIs] using hp, hv⟩
  | none =>
    rw [h1] at h
    cases h2 : strictFirstVisible (fun b => b.styled && textIs (qLabel n) b) page with
    | some x =>
      rw [h2] at h
      simp only [Option.some.injEq] at h
      subst h
      obtain ⟨hp, hv⟩ := strictFirstVisible_some _ _ _ h2
      refine ⟨?_, hv⟩
      have := (Bool.and_eq_true _ _).mp hp
      simpa [textIs] using this.2
    | none =>
      rw [h2] at h
      have hp := List.find?_some h
      have := (Bool.and_eq_true _ _).mp hp
      exact ⟨by simpa using this.1, this.2⟩

/-- Claim C6 witness: on a page holding exactly the Q2 marker, navigation
selects a button whose trimmed text is exactly `Q2`. -/
theorem c6_exact_match_navigation_witness :
    jsTrim buttonQ2.text = qLabel 2 ∧ buttonQ2.visible = true :=
  c6_exact_match_navigation.1 [buttonQ2] 2 buttonQ2 (by decide)

lemma retryLoop_shape (i : Nat) (att : Nat → SolveOut) (init : List QuestionResult) :
    ∃ r n, retryLoop i att init = (init ++ [r], n) ∧ n ≤ 2
      ∧ r.questionNumber = qLabel i := by
  unfold retryLoop
  cases h0 : strTruthy (att 0).errorMessage with
  | false =>
    exact ⟨solveRecord i (att 0), 0, by simp [retryLoopGo, h0], by omega, rfl⟩
  | true =>
    cases h1 : strTruthy (att 1).errorMessage with
    | false =>
      exact ⟨solveRecord i (att 1), 1, by simp [retryLoopGo, h0, h1], by omega, rfl⟩
    | true =>
      cases h2 : strTruthy (att 2).errorMessage with
      | false =>
        exact ⟨solveRecord i (att 2), 2, by simp [retryLoopGo, h0, h1, h2], by omega, rfl⟩
      | true =>
        exact ⟨skipRecord i (att 2), 2, by simp [retryLoopGo, h0, h1, h2], by omega, rfl⟩

/-- Claim C2: when every attempt at an ordinal raises (truthy error message),
the loop performs exactly 2 retries (re-navigating before each), the row of a
retried attempt is popped before the retry, and the ordinal ends recorded
exactly once — the final ledger extends the initial one by the single
terminal `SKIPPED` row whose error detail quotes the last failure; for any
attempt behavior at most one row per ordinal survives and at most 2 retries
happen. -/
theorem c2_retry_skip_after_exhaustion (i : Nat) (att : Nat → SolveOut)
    (init : List QuestionResult)
    (h0 : strTruthy (att 0).errorMessage = true)
    (h1 : strTruthy (att 1).errorMessage = true)
    (h2 : strTruthy (att 2).errorMessage = true) :
    retryLoop i att init = (init ++ [skipRecord i (att 2)], 2)
    ∧ (skipRecord i (att 2)).status = QStatus.SKIPPED
    ∧ (∀ m, (att 2).errorMessage = some m →
        (skipRecord i (att 2)).errorMessage
          = some ("Failed after 2 retries due to: " ++ m))
    ∧ (∀ att2 : Nat → SolveOut, ∃ r n,
        retryLoop i att2 init = (init ++ [r], n) ∧ n ≤ 2
          ∧ r.questionNumber = qLabel i) := by
  refine ⟨?_, rfl, ?_, fun att2 => retryLoop_shape i att2 init⟩
  · unfold retryLoop
    simp [retryLoopGo, h0, h1, h2]
  · intro m hm
    simp [skipRecord, hm]

def failingAttempt : Nat → SolveOut := fun _ =>
  { questionText := "Question text", code := "print(1)", status := QStatus.FAILED,
    errorMessage := some "RUN button not found with any selector" }

/-- Claim C2 witness: three consecutive failing attempts at ordinal 7 leave
exactly the terminal `SKIPPED` row in the ledger, after 2 retries. -/
theorem c2_retry_skip_after_exhaustion_witness :
    retryLoop 7 failingAttempt [] = ([skipRecord 7 (failingAttempt 2)], 2) := by
  have h := c2_retry_skip_after_exhaustion 7 failingAttempt [] (by decide)
    (by decide) (by decide)
  simpa using h.1

lemma geminiAttempts_allfail (env : Nat → Nat → CallOutcome) (mIdx : Nat)
    (lastModel : Bool) (m1 m2 m3 : String)
    (h1 : env mIdx 1 = CallOutcome.err m1) (h2 : env mIdx 2 = CallOutcome.err m2)
    (h3 : env mIdx 3 = CallOutcome.err m3)
    (lastErr : Option String) (calls : List (Nat × Nat)) (delays : List Nat) :
    geminiAttempts env mIdx lastModel 4 1 lastErr calls delays
      = (none, some m3, calls ++ [(mIdx, 1), (mIdx, 2), (mIdx, 3)],
         delays ++ ((if shouldRetry m1 then [2000] else []) ++
                    (if shouldRetry m2 then [4000] else []))) := by
  by_cases s1 : shouldRetry m1 <;> by_cases s2 : shouldRetry m2 <;>
    cases lastModel <;>
      simp [geminiAttempts, h1, h2, h3, s1, s2]

lemma geminiModels_allfail (env : Nat → Nat → CallOutcome) (msgs : Nat → Nat → String)
    (henv : ∀ m a, env m a = CallOutcome.err (msgs m a)) :
    ∀ (pre : List Nat) (ilast : Nat) (lastErr : Option String)
      (calls : List (Nat × Nat)) (delays : List Nat),
      (geminiModels env (pre ++ [ilast]) lastErr calls delays).1
        = geminiErrResult (msgs ilast 3) := by
  intro pre
  induction pre with
  | nil =>
    intro ilast lastErr calls delays
    simp only [List.nil_append, geminiModels, List.isEmpty_nil,
      geminiAttempts_allfail env ilast true _ _ _ (henv ilast 1) (henv ilast 2)
        (henv ilast 3)]
  | cons i0 pre1 ih =>
    intro ilast lastErr calls delays
    have hne : (pre1 ++ [ilast]).isEmpty = false := by
      cases pre1 <;> rfl
    simp only [List.cons_append, geminiModels, List.append_eq, hne,
      geminiAttempts_allfail env i0 false _ _ _ (henv i0 1) (henv i0 2) (henv i0 3)]
    exact ih ilast _ _ _

/-- Claim C4: when every model/attempt combination fails,
`analyzeQuestionAndCode` returns normally (no exception reaches the caller)
with verdict status `ERROR` and remarks quoting the last error encountered —
the message thrown by attempt 3 of the last configured model. -/
theorem c4_error_verdict_on_total_failure (apiKey : Option String)
    (hkey : geminiKeyConfigured apiKey = true)
    (env : Nat → Nat → CallOutcome) (msgs : Nat → Nat → String)
    (henv : ∀ m a, env m a = CallOutcome.err (msgs m a))
    (pre : List Nat) (ilast : Nat) :
    (analyzeQuestionAndCode apiKey env (pre ++ [ilast])).1
      = geminiErrResult (msgs ilast 3)
    ∧ (geminiErrResult (msgs ilast 3)).status = "ERROR"
    ∧ (geminiErrResult (msgs ilast 3)).remarks
        = "Analysis failed: " ++ msgs ilast 3 ++ ". Service may be overloaded." := by
  refine ⟨?_, rfl, rfl⟩
  simp only [analyzeQuestionAndCode, hkey, if_true]
  exact geminiModels_allfail env msgs henv pre ilast none [] []

/-- Claim C4 witness: a run where every call of the single configured model
throws `boom` ends with the `ERROR` verdict quoting `boom`. -/
theorem c4_error_verdict_on_total_failure_witness :
    (analyzeQuestionAndCode (some "k") (fun _ _ => CallOutcome.err "boom") [0]).1
      = geminiErrResult "boom" := by
  have h := c4_error_verdict_on_total_failure (some "k") (by decide)
    (fun _ _ => CallOutcome.err "boom") (fun _ _ => "boom") (fun _ _ => rfl) [] 0
  simpa using h.1

/-- Claim C5 counterexample: `connection refused` is not among the transient
markers (the source tests `econnrefused`), and a non-transient error (here
`invalid request`) is still re-attempted — three calls are made to the model,
not one — only without any backoff delay. -/
theorem c5_counterexample :
    shouldRetry "connection refused" = false
    ∧ (analyzeQuestionAndCode (some "key")
        (fun _ _ => CallOutcome.err "invalid request") [0]).2.1
        = [(0, 1), (0, 2), (0, 3)]
    ∧ (analyzeQuestionAndCode (some "key")
        (fun _ _ => CallOutcome.err "invalid request") [0]).2.2
        = [] := by
  decide

/-- Claim C5 (amended): transient-failure detection is case-insensitive over
the markers 503 / service unavailable / overloaded / 429 / rate limit /
timeout / econnrefused; a model is tried up to 3 total attempts with backoff
sleeps of 2000 ms then 4000 ms when the failures are transient; non-transient
failures are also re-attempted up to the same 3-attempt budget, only without
any backoff sleep. -/
theorem c5_backoff_spec (env : Nat → Nat → CallOutcome) (m1 m2 m3 : String)
    (h1 : env 0 1 = CallOutcome.err m1) (h2 : env 0 2 = CallOutcome.err m2)
    (h3 : env 0 3 = CallOutcome.err m3) :
    (shouldRetry m1 = true → shouldRetry m2 = true →
      analyzeQuestionAndCode (some "key") env [0]
        = (geminiErrResult m3, [(0, 1), (0, 2), (0, 3)], [2000, 4000]))
    ∧ (shouldRetry m1 = false → shouldRetry m2 = false →
      analyzeQuestionAndCode (some "key") env [0]
        = (geminiErrResult m3, [(0, 1), (0, 2), (0, 3)], []))
    ∧ (∀ s t : String, jsToLower s = jsToLower t → shouldRetry s = shouldRetry t) := by
  have hk : geminiKeyConfigured (some "key") = true := by decide
  refine ⟨?_, ?_, ?_⟩
  · intro s1 s2
    simp only [analyzeQuestionAndCode, hk, if_true, geminiModels, List.isEmpty_nil,
      geminiAttempts_allfail env 0 true m1 m2 m3 h1 h2 h3, s1, s2]
    rfl
  · intro s1 s2
    simp only [analyzeQuestionAndCode, hk, if_true, geminiModels, List.isEmpty_nil,
      geminiAttempts_allfail env 0 true m1 m2 m3 h1 h2 h3, s1, s2]
    rfl
  · intro s t hst
    have hdata : s.data.map Char.toLower = t.data.map Char.toLower := by
      have h0 := congrArg String.data hst
      simpa [jsToLower] using h0
    by_cases hs0 : s = ""
    · subst hs0
      have h2 : t.data.map Char.toLower = [] := by rw [← hdata]; rfl
      have h3' : t.data = [] := List.map_eq_nil_iff.mp h2
      have ht0 : t = "" := String.ext h3'
      subst ht0
      rfl
    · have ht0 : t ≠ "" := by
        intro hcon
        subst hcon
        have h2 : s.data.map Char.toLower = [] := by rw [hdata]; rfl
        exact hs0 (String.ext (List.map_eq_nil_iff.mp h2))
      simp only [shouldRetry, beq_iff_eq]
      rw [if_neg hs0, if_neg ht0, hst]

/-- Claim C5 witness: with a model that always throws `503 service overload`,
a transient message in every casing, the client makes 3 calls with backoff
sleeps of 2 s and 4 s and returns the `ERROR` verdict quoting the message. -/
theorem c5_backoff_spec_witness :
    analyzeQuestionAndCode (some "key") (fun _ _ => CallOutcome.err "503 Overloaded") [0]
      = (geminiErrResult "503 Overloaded", [(0, 1), (0, 2), (0, 3)], [2000, 4000]) :=
  (c5_backoff_spec (fun _ _ => CallOutcome.err "503 Overloaded")
    "503 Overloaded" "503 Overloaded" "503 Overloaded" rfl rfl rfl).1
    (by decide) (by decide)

/-- Claim C8: the constructor leaves the client unconfigured for a missing,
empty, or placeholder API key, and in that state `analyzeQuestionAndCode`
returns the `SKIPPED` stub verdict with an empty call trace — no network
call is made and nothing is thrown, whatever the environment would do. -/
theorem c8_stub_without_api_key (apiKey : Option String)
    (env : Nat → Nat → CallOutcome) (modelIdxs : List Nat) :
    geminiKeyConfigured none = false
    ∧ geminiKeyConfigured (some "your_api_key_here") = false
    ∧ geminiKeyConfigured (some "") = false
    ∧ (geminiKeyConfigured apiKey = false →
        analyzeQuestionAndCode apiKey env modelIdxs = (geminiStubResult, [], [])
          ∧ geminiStubResult.status = "SKIPPED") := by
  refine ⟨by decide, by decide, by decide, ?_⟩
  intro h
  exact ⟨by simp [analyzeQuestionAndCode, h], rfl⟩

/-- Claim C8 witness: with no key at all, and an environment that would throw
on any call, the client returns the skip stub and makes zero calls. -/
theorem c8_stub_without_api_key_witness :
    analyzeQuestionAndCode none (fun _ _ => CallOutcome.err "boom") [0]
      = (geminiStubResult, [], []) :=
  ((c8_stub_without_api_key none (fun _ _ => CallOutcome.err "boom") [0]).2.2.2 rfl).1

lemma rowLe_total (a b : SheetRow) : rowLe a b ∨ rowLe b a := by
  unfold rowLe rowLeB
  rcases mergeRowKey a with _ | x <;> rcases mergeRowKey b with _ | y <;> simp
  exact Int.le_total x y

lemma rowLe_trans_mid (a b c : SheetRow) (hb : (mergeRowKey b).isSome = true)
    (hab : rowLe a b) (hbc : rowLe b c) : rowLe a c := by
  unfold rowLe rowLeB at hab hbc ⊢
  rcases hka : mergeRowKey a with _ | x <;> rcases hkc : mergeRowKey c with _ | y <;>
    rcases hkb : mergeRowKey b with _ | z <;> simp_all
  omega

lemma orderedInsert_sorted_keys (a : SheetRow) (l : List SheetRow)
    (hl : ∀ r ∈ l, (mergeRowKey r).isSome = true)
    (hs : l.Sorted rowLe) : (List.orderedInsert rowLe a l).Sorted rowLe := by
  induction l with
  | nil => simp [List.orderedInsert]
  | cons b t ih =>
    obtain ⟨hbt, hst⟩ := List.sorted_cons.mp hs
    rw [List.orderedInsert]
    by_cases hab : rowLe a b
    · rw [if_pos hab]
      refine List.sorted_cons.mpr ⟨?_, hs⟩
      intro x hx
      rcases List.mem_cons.mp hx with rfl | hx2
      · exact hab
      · exact rowLe_trans_mid a b x (hl b (List.mem_cons_self b t)) hab (hbt x hx2)
    · rw [if_neg hab]
      have hba : rowLe b a := (rowLe_total a b).resolve_left hab
      refine List.sorted_cons.mpr
        ⟨?_, ih (fun r hr => hl r (List.mem_cons_of_mem _ hr)) hst⟩
      intro x hx
      rcases (List.mem_orderedInsert rowLe).mp hx with rfl | hx2
      · exact hba
      · exact hbt x hx2

lemma insertionSort_sorted_keys (l : List SheetRow)
    (hl : ∀ r ∈ l, (mergeRowKey r).isSome = true) :
    (List.insertionSort rowLe l).Sorted rowLe := by
  induction l with
  | nil => simp
  | cons a t ih =>
    rw [List.insertionSort]
    refine orderedInsert_sorted_keys a _ ?_
      (ih (fun r hr => hl r (List.mem_cons_of_mem _ hr)))
    intro r hr
    have hrt : r ∈ t := (List.perm_insertionSort rowLe t).mem_iff.mp hr
    exact hl r (List.mem_cons_of_mem _ hrt)

def rowQ5 : SheetRow := { questionNumber := some "Q5", rest := "row five" }

def rowQX : SheetRow := { questionNumber := some "QX", rest := "row unparseable" }

def rowQ3 : SheetRow := { questionNumber := some "Q3", rest := "row three" }

/-- Claim C9 counterexample: an unparseable question number is not treated as
ordinal 0 and does not sort first: `parseInt('X')` is NaN, the comparator
value is then treated as an equality by the sort, and the stable sort leaves
the `QX` row where it was — after the genuine ordinal 5, not before it. -/
theorem c9_counterexample :
    mergeReports [[rowQ5, rowQX]] = [rowQ5, rowQX]
    ∧ mergeRowKey rowQX = none
    ∧ mergeRowKey rowQ5 = some 5 := by
  decide

/-- Claim C9 (amended): over rows whose question numbers all parse, the
merged output is a permutation of the concatenated input rows sorted
ascending by parsed ordinal; a row with a missing question number gets key 0
and the comparator places it (strictly) before every genuine positive
ordinal; a row with a non-empty unparseable number has no numeric key (NaN)
and is kept in its original relative position instead of sorting first. -/
theorem c9_merge_sorted (files : List (List SheetRow))
    (h : ∀ r ∈ files.flatten, (mergeRowKey r).isSome = true) :
    (mergeReports files).Perm files.flatten
    ∧ (mergeReports files).Sorted rowLe
    ∧ (∀ rest, mergeRowKey { questionNumber := none, rest := rest } = some 0)
    ∧ (∀ a b : SheetRow, mergeRowKey a = some 0 → ∀ kb, mergeRowKey b = some kb →
        0 < kb → rowLe a b ∧ ¬rowLe b a) := by
  refine ⟨List.perm_insertionSort rowLe files.flatten,
    insertionSort_sorted_keys _ h, fun _ => rfl, ?_⟩
  intro a b ha kb hb hkb
  constructor
  · unfold rowLe rowLeB
    rw [ha, hb]
    simp
    omega
  · unfold rowLe rowLeB
    rw [ha, hb]
    simp
    omega

/-- Claim C9 witness: merging two single-row files holding ordinals 5 and 3
produces a sorted permutation of both rows. -/
theorem c9_merge_sorted_witness :
    (mergeReports [[rowQ5], [rowQ3]]).Perm ([[rowQ5], [rowQ3]] : List (List SheetRow)).flatten
    ∧ (mergeReports [[rowQ5], [rowQ3]]).Sorted rowLe := by
  have h := c9_merge_sorted [[rowQ5], [rowQ3]] (by decide)
  exact ⟨h.1, h.2.1⟩

end PlaywrightAutomation
